import Mathlib

/-!
Shallow embedding of the real-time WebSocket core of the wallmartCircles
repository (`src/server/websocket.ts`), together with the external store
operations it consumes (`src/server/storage.ts` / the supabase row types).

Connections are identified by `ConnId`; the `WebSocketManager`'s two maps
(`clients : userId -> WebSocket[]` and `circleRooms : circleId -> Set<userId>`)
are modelled as association lists, with JS `Map`/`Set` semantics spelled out
by the helper operations below.  Each handler returns the updated in-memory
state, the updated external store, and the ordered list of observable effects
(store writes and outbound sends/broadcasts) in program order.
-/

abbrev UserId := String
abbrev CircleId := Nat
abbrev ConnId := Nat

/-- One `AuthenticatedWebSocket`: the `userId` / `circleId` fields attached to
the `ws` object, plus its `readyState === OPEN` flag. -/
structure Conn where
  userId : Option UserId := none
  circleId : Option CircleId := none
  isOpen : Bool := true
deriving Repr, DecidableEq

/-- Row of the `users` table as read by the handlers (`first_name`, `last_name`). -/
structure UserRec where
  id : UserId
  first_name : String
  last_name : String
deriving Repr, DecidableEq

/-- Row of the `circle_members` table (persisted membership). -/
structure MemberRec where
  circle_id : CircleId
  user_id : UserId
deriving Repr, DecidableEq

/-- Row of the `circles` table (only the fields the core touches). -/
structure CircleRec where
  id : CircleId
  spent : Int
deriving Repr, DecidableEq

/-- Row of the `messages` table. -/
structure MessageRec where
  id : Nat
  circle_id : CircleId
  user_id : UserId
  content : String
  reply_to : Option Nat
deriving Repr, DecidableEq

/-- Row of the `item_votes` table. -/
structure VoteRec where
  item_id : Nat
  user_id : UserId
  vote : Int
deriving Repr, DecidableEq

/-- Row of the `cart_items` table. -/
structure CartItemRec where
  id : Nat
  circle_id : CircleId
  name : String
  price : Int
  quantity : Int
  added_by : UserId
  assigned_to : Option UserId
deriving Repr, DecidableEq

/-- Row of the `cart_history` table (`details` flattened to its two fields). -/
structure CartHistoryRec where
  circle_id : CircleId
  user_id : UserId
  action : String
  item_name : String
  details_price : Int
  details_quantity : Int
deriving Repr, DecidableEq

/-- Row of the `notifications` table. -/
structure NotificationRec where
  user_id : UserId
  circle_id : CircleId
  type : String
  title : String
  message : String
  read : Bool
deriving Repr, DecidableEq

/-- Row of the `tasks` table (only the fields the core touches). -/
structure TaskRec where
  id : Nat
  circle_id : CircleId
  title : String
  completed : Bool
deriving Repr, DecidableEq

/-- The external persistence collaborator: table contents plus the
auto-increment counters the in-memory storage uses for fresh ids. -/
structure Store where
  users : List UserRec
  memberships : List MemberRec
  circles : List CircleRec
  messages : List MessageRec
  votes : List VoteRec
  cartItems : List CartItemRec
  cartHistory : List CartHistoryRec
  notifications : List NotificationRec
  tasks : List TaskRec
  nextMessageId : Nat
  nextCartItemId : Nat
deriving Repr

/-! ### JS `Map` association lists and `Set` lists -/

/-- `Map.get`: first binding of the key. -/
def alookup {β : Type} : List (String × β) → String → Option β
  | [], _ => none
  | (k, v) :: rest, a => if k = a then some v else alookup rest a

/-- `Map.set`: replace the key's binding, or append a fresh one. -/
def aset {β : Type} : List (String × β) → String → β → List (String × β)
  | [], a, b => [(a, b)]
  | (k, v) :: rest, a, b => if k = a then (a, b) :: rest else (k, v) :: aset rest a b

/-- `Map.delete`: drop every binding of the key. -/
def aerase {β : Type} : List (String × β) → String → List (String × β)
  | [], _ => []
  | (k, v) :: rest, a => if k = a then aerase rest a else (k, v) :: aerase rest a

/-- `Map.get` over a `Nat`-keyed map. -/
def nlookup {β : Type} : List (Nat × β) → Nat → Option β
  | [], _ => none
  | (k, v) :: rest, a => if k = a then some v else nlookup rest a

/-- `Map.set` over a `Nat`-keyed map. -/
def nset {β : Type} : List (Nat × β) → Nat → β → List (Nat × β)
  | [], a, b => [(a, b)]
  | (k, v) :: rest, a, b => if k = a then (a, b) :: rest else (k, v) :: nset rest a b

/-- JS `Set.add`: idempotent append. -/
def setAdd (l : List UserId) (a : UserId) : List UserId :=
  if a ∈ l then l else l ++ [a]

/-- JS `Set.delete`. -/
def setDel : List UserId → UserId → List UserId
  | [], _ => []
  | x :: rest, a => if x = a then setDel rest a else x :: setDel rest a

/-- `Array.prototype.splice` at `indexOf`: remove the first occurrence. -/
def eraseOne : List ConnId → ConnId → List ConnId
  | [], _ => []
  | x :: rest, c => if x = c then rest else x :: eraseOne rest c

/-! ### Store operations (the abstract collaborator of `storage.ts`) -/

/-- `storage.getUser`. -/
def getUser : List UserRec → UserId → Option UserRec
  | [], _ => none
  | u :: rest, uid => if u.id = uid then some u else getUser rest uid

/-- `storage.getUserCircleMembership`. -/
def getMembership : List MemberRec → UserId → CircleId → Option MemberRec
  | [], _, _ => none
  | m :: rest, uid, cid =>
      if m.user_id = uid ∧ m.circle_id = cid then some m else getMembership rest uid cid

/-- `storage.getCircleMembers`: every membership row of the circle. -/
def getCircleMembers : List MemberRec → CircleId → List MemberRec
  | [], _ => []
  | m :: rest, cid =>
      if m.circle_id = cid then m :: getCircleMembers rest cid else getCircleMembers rest cid

/-- `storage.getCircle`. -/
def getCircle : List CircleRec → CircleId → Option CircleRec
  | [], _ => none
  | c :: rest, cid => if c.id = cid then some c else getCircle rest cid

/-- `storage.updateCircle { spent }`: overwrite `spent` on the first matching row. -/
def updateCircleSpent : List CircleRec → CircleId → Int → List CircleRec
  | [], _, _ => []
  | c :: rest, cid, s =>
      if c.id = cid then { c with spent := s } :: rest else c :: updateCircleSpent rest cid s

/-- `storage.getItemVote`: first vote row of the (item, user) pair. -/
def getItemVote : List VoteRec → Nat → UserId → Option VoteRec
  | [], _, _ => none
  | v :: rest, i, u =>
      if v.item_id = i ∧ v.user_id = u then some v else getItemVote rest i u

/-- `storage.deleteItemVote`: remove the first vote row of the pair. -/
def deleteVoteRow : List VoteRec → Nat → UserId → List VoteRec
  | [], _, _ => []
  | v :: rest, i, u =>
      if v.item_id = i ∧ v.user_id = u then rest else v :: deleteVoteRow rest i u

/-- `storage.updateItemVote`: set `vote` on the first row of the pair. -/
def updateVoteRow : List VoteRec → Nat → UserId → Int → List VoteRec
  | [], _, _, _ => []
  | v :: rest, i, u, w =>
      if v.item_id = i ∧ v.user_id = u then { v with vote := w } :: rest
      else v :: updateVoteRow rest i u w

/-- The vote rows attached to one item by `storage.getCartItems`. -/
def votesOn : List VoteRec → Nat → List VoteRec
  | [], _ => []
  | v :: rest, i => if v.item_id = i then v :: votesOn rest i else votesOn rest i

/-- `storage.getCartItems`: the circle's items, each with its votes. -/
def getCartItems (s : Store) (cid : CircleId) : List (CartItemRec × List VoteRec) :=
  (s.cartItems.filter (fun i => i.circle_id == cid)).map (fun i => (i, votesOn s.votes i.id))

/-- `storage.updateTask`: merge the updates into the first matching row,
returning the updated row when it exists. -/
def findTask : List TaskRec → Nat → Option TaskRec
  | [], _ => none
  | t :: rest, i => if t.id = i then some t else findTask rest i

/-- The `updates` object of an `update_task` envelope (partial task fields). -/
structure TaskUpdates where
  title : Option String := none
  completed : Option Bool := none
deriving Repr, DecidableEq

/-- Apply a partial update to a task row. -/
def applyTaskUpdates (t : TaskRec) (u : TaskUpdates) : TaskRec :=
  { t with title := u.title.getD t.title, completed := u.completed.getD t.completed }

/-- `storage.updateTask`'s table effect: rewrite the first matching row. -/
def updateTaskRows : List TaskRec → Nat → TaskUpdates → List TaskRec
  | [], _, _ => []
  | t :: rest, i, u =>
      if t.id = i then applyTaskUpdates t u :: rest else t :: updateTaskRows rest i u

/-! ### Outbound envelopes and observable effects -/

/-- Outbound wire envelopes produced by the handlers (code names kept). -/
inductive Envelope where
  | authSuccess (userId : UserId)
  | authError (msg : String)
  | errorMsg (msg : String)
  | joinedCircle (circleId : CircleId)
  | leftCircle (circleId : CircleId)
  | userJoined (userId : UserId)
  | userLeft (userId : UserId)
  | newMessage (msg : MessageRec)
  | typing (userId : UserId) (userName : String) (isTyping : Bool)
  | cartUpdated (items : List (CartItemRec × List VoteRec))
  | itemAdded (item : CartItemRec)
  | taskUpdated (task : TaskRec) (updatedBy : Option UserRec)
deriving Repr, DecidableEq

/-- Observable effects of one handler invocation, in program order: outbound
sends/broadcasts and external-store writes.  `scheduleTimer` is the vocabulary
for a `setTimeout`-style scheduled task keyed by (room, user); the server
handlers are checked below for whether they ever emit one. -/
inductive Effect where
  | sendTo (conn : ConnId) (env : Envelope)
  | broadcast (circleId : CircleId) (env : Envelope) (excludeUserId : Option UserId)
  | scheduleTimer (circleId : CircleId) (userId : UserId) (delayMs : Nat)
  | dbCreateMessage (m : MessageRec)
  | dbCreateNotification (n : NotificationRec)
  | dbCreateVote (v : VoteRec)
  | dbUpdateVote (itemId : Nat) (userId : UserId) (vote : Int)
  | dbDeleteVote (itemId : Nat) (userId : UserId)
  | dbCreateCartItem (i : CartItemRec)
  | dbCreateCartHistory (h : CartHistoryRec)
  | dbUpdateCircle (circleId : CircleId) (spent : Int)
  | dbUpdateTask (taskId : Nat) (updates : TaskUpdates)
deriving Repr, DecidableEq

/-- The `WebSocketManager`'s in-memory state: per-connection fields plus the
two maps `clients : userId -> WebSocket[]` and `circleRooms : circleId -> Set<userId>`. -/
structure WSState where
  conns : ConnId → Conn
  clients : List (UserId × List ConnId)
  circleRooms : List (CircleId × List UserId)

/-- Overwrite one connection's fields (mutation of the `ws` object). -/
def setConn (st : WSState) (c : ConnId) (conn : Conn) : WSState :=
  { st with conns := fun x => if x = c then conn else st.conns x }

/-! ### Broadcast resolution (who actually receives an envelope) -/

/-- The sends produced by iterating a client list: one copy per array entry
whose socket is `OPEN` (`client.readyState === WebSocket.OPEN`). -/
def openSends (st : WSState) : List ConnId → Envelope → List (ConnId × Envelope)
  | [], _ => []
  | c :: rest, env =>
      if (st.conns c).isOpen then (c, env) :: openSends st rest env
      else openSends st rest env

/-- `sendToUser` / the per-member body of `broadcastToCircle`: look the user up
in `clients` and send to each of their registered sockets. -/
def sendToUser (st : WSState) (u : UserId) (env : Envelope) : List (ConnId × Envelope) :=
  match alookup st.clients u with
  | none => []
  | some l => openSends st l env

/-- Fan a broadcast out over a member list, skipping the excluded user. -/
def deliverAll (st : WSState) : List UserId → Envelope → Option UserId → List (ConnId × Envelope)
  | [], _, _ => []
  | u :: rest, env, ex =>
      (if ex = some u then [] else sendToUser st u env) ++ deliverAll st rest env ex

/-- `broadcastToCircle`: resolve the room's presence set and fan out. -/
def broadcastDeliveries (st : WSState) (cid : CircleId) (env : Envelope)
    (ex : Option UserId) : List (ConnId × Envelope) :=
  match nlookup st.circleRooms cid with
  | none => []
  | some room => deliverAll st room env ex

/-! ### The handlers of `WebSocketManager` -/

/-- `${user?.first_name} ${user?.last_name}` (JS stringifies a missing user
as `undefined`). -/
def displayName : Option UserRec → String
  | some u => u.first_name ++ " " ++ u.last_name
  | none => "undefined undefined"

/-- `x || null` on an optional numeric field (`0` is falsy in JS). -/
def jsOrNull : Option Nat → Option Nat
  | some 0 => none
  | x => x

/-- `data.quantity || 1` (`0` and `undefined` are falsy in JS). -/
def jsQty : Option Int → Int
  | none => 1
  | some n => if n = 0 then 1 else n

/-- `Math.round` on a JS number, on the rationals (round half toward +∞). -/
def jsRound (q : ℚ) : Int := ⌊q + 1 / 2⌋

/-- `handleAuth`: verify the token, attach `userId`, push the socket onto the
user's client list (creating it when absent), and reply. -/
def handleAuth (verify : String → Option UserId) (st : WSState) (c : ConnId)
    (token : String) : WSState × List Effect :=
  match verify token with
  | none => (st, [Effect.sendTo c (Envelope.authError "Invalid token")])
  | some uid =>
      let st1 := setConn st c { st.conns c with userId := some uid }
      let cur := (alookup st1.clients uid).getD []
      let st2 := { st1 with clients := aset st1.clients uid (cur ++ [c]) }
      (st2, [Effect.sendTo c (Envelope.authSuccess uid)])

/-- `handleJoinCircle`: require auth, consult the persisted membership, set
`ws.circleId`, add the user to the room's presence set, notify the others,
and confirm to the joiner. -/
def handleJoinCircle (st : WSState) (s : Store) (c : ConnId) (cid : CircleId) :
    WSState × List Effect :=
  match (st.conns c).userId with
  | none => (st, [Effect.sendTo c (Envelope.errorMsg "Not authenticated")])
  | some uid =>
      match getMembership s.memberships uid cid with
      | none => (st, [Effect.sendTo c (Envelope.errorMsg "Not a member of this circle")])
      | some _ =>
          let st1 := setConn st c { st.conns c with circleId := some cid }
          let room := (nlookup st1.circleRooms cid).getD []
          let st2 := { st1 with circleRooms := nset st1.circleRooms cid (setAdd room uid) }
          (st2, [Effect.broadcast cid (Envelope.userJoined uid) (some uid),
                 Effect.sendTo c (Envelope.joinedCircle cid)])

/-- `handleLeaveCircle`: drop the user from the named circle's presence set,
notify the others, clear `ws.circleId`, and confirm. -/
def handleLeaveCircle (st : WSState) (c : ConnId) (cid : CircleId) :
    WSState × List Effect :=
  match (st.conns c).userId with
  | none => (st, [])
  | some uid =>
      let st1 := match nlookup st.circleRooms cid with
        | none => st
        | some room => { st with circleRooms := nset st.circleRooms cid (setDel room uid) }
      let st2 := setConn st1 c { st1.conns c with circleId := none }
      (st2, [Effect.broadcast cid (Envelope.userLeft uid) (some uid),
             Effect.sendTo c (Envelope.leftCircle cid)])

/-- The notification row `handleSendMessage` writes for one other member. -/
def msgNotifFor (s : Store) (uid : UserId) (cid : CircleId) (m : MemberRec) : NotificationRec :=
  { user_id := m.user_id, circle_id := cid, type := "new_message", title := "New message",
    message := displayName (getUser s.users uid) ++ " sent a message", read := false }

/-- The members other than the sender (`member.user_id !== ws.userId`). -/
def othersOf (uid : UserId) : List MemberRec → List MemberRec
  | [] => []
  | m :: rest => if m.user_id = uid then othersOf uid rest else m :: othersOf uid rest

/-- `handleSendMessage`: persist the message, broadcast `new_message` to the
whole room, then write one notification per other persisted member. -/
def handleSendMessage (st : WSState) (s : Store) (c : ConnId) (content : String)
    (replyTo : Option Nat) : WSState × Store × List Effect :=
  match (st.conns c).userId, (st.conns c).circleId with
  | some uid, some cid =>
      let msg : MessageRec :=
        { id := s.nextMessageId, circle_id := cid, user_id := uid,
          content := content, reply_to := jsOrNull replyTo }
      let s1 := { s with messages := s.messages ++ [msg],
                         nextMessageId := s.nextMessageId + 1 }
      let notifs := (othersOf uid (getCircleMembers s1.memberships cid)).map
        (msgNotifFor s1 uid cid)
      let s2 := { s1 with notifications := s1.notifications ++ notifs }
      (st, s2,
        Effect.dbCreateMessage msg
          :: Effect.broadcast cid (Envelope.newMessage msg) none
          :: notifs.map Effect.dbCreateNotification)
  | _, _ => (st, s, [Effect.sendTo c (Envelope.errorMsg "Not authenticated or not in a circle")])

/-- `handleTyping`: silently drop unless in a room; otherwise broadcast the
typing envelope (with the sender's display name) to the room minus the sender. -/
def handleTyping (st : WSState) (s : Store) (c : ConnId) (isTyping : Bool) :
    WSState × Store × List Effect :=
  match (st.conns c).userId, (st.conns c).circleId with
  | some uid, some cid =>
      (st, s, [Effect.broadcast cid
        (Envelope.typing uid (displayName (getUser s.users uid)) isTyping) (some uid)])
  | _, _ => (st, s, [])

/-- `handleVoteItem`: three-case toggle on the (item, user) vote row, then a
full `cart_updated` resync broadcast of the circle's items. -/
def handleVoteItem (st : WSState) (s : Store) (c : ConnId) (itemId : Nat) (v : Int) :
    WSState × Store × List Effect :=
  match (st.conns c).userId, (st.conns c).circleId with
  | some uid, some cid =>
      let step : Store × List Effect :=
        match getItemVote s.votes itemId uid with
        | some ex =>
            if ex.vote = v then
              ({ s with votes := deleteVoteRow s.votes itemId uid },
               [Effect.dbDeleteVote itemId uid])
            else
              ({ s with votes := updateVoteRow s.votes itemId uid v },
               [Effect.dbUpdateVote itemId uid v])
        | none =>
            ({ s with votes := s.votes ++ [⟨itemId, uid, v⟩] },
             [Effect.dbCreateVote ⟨itemId, uid, v⟩])
      (st, step.1,
        step.2 ++ [Effect.broadcast cid (Envelope.cartUpdated (getCartItems step.1 cid)) none])
  | _, _ => (st, s, [])

/-- The notification row `handleAddCartItem` writes for one other member. -/
def cartNotifFor (s : Store) (uid : UserId) (cid : CircleId) (name : String)
    (m : MemberRec) : NotificationRec :=
  { user_id := m.user_id, circle_id := cid, type := "item_added", title := "New item added",
    message := displayName (getUser s.users uid) ++ " added " ++ name ++ " to the cart",
    read := false }

/-- `handleAddCartItem`: persist the item (price converted to cents), append a
cart-history row, read-modify-write the circle's `spent`, broadcast
`item_added`, then notify the other members. -/
def handleAddCartItem (st : WSState) (s : Store) (c : ConnId) (name : String)
    (price : ℚ) (quantity : Option Int) : WSState × Store × List Effect :=
  match (st.conns c).userId, (st.conns c).circleId with
  | some uid, some cid =>
      let cents := jsRound (price * 100)
      let q := jsQty quantity
      let item : CartItemRec :=
        { id := s.nextCartItemId, circle_id := cid, name := name, price := cents,
          quantity := q, added_by := uid, assigned_to := none }
      let s1 := { s with cartItems := s.cartItems ++ [item],
                         nextCartItemId := s.nextCartItemId + 1 }
      let hist : CartHistoryRec :=
        { circle_id := cid, user_id := uid, action := "added", item_name := name,
          details_price := cents, details_quantity := q }
      let s2 := { s1 with cartHistory := s1.cartHistory ++ [hist] }
      let spentStep : Store × List Effect :=
        match getCircle s2.circles cid with
        | some circ =>
            ({ s2 with circles := updateCircleSpent s2.circles cid (circ.spent + cents * q) },
             [Effect.dbUpdateCircle cid (circ.spent + cents * q)])
        | none => (s2, [])
      let s3 := spentStep.1
      let notifs := (othersOf uid (getCircleMembers s3.memberships cid)).map
        (cartNotifFor s3 uid cid name)
      let s4 := { s3 with notifications := s3.notifications ++ notifs }
      (st, s4,
        Effect.dbCreateCartItem item :: Effect.dbCreateCartHistory hist
          :: spentStep.2
          ++ Effect.broadcast cid (Envelope.itemAdded item) none
             :: notifs.map Effect.dbCreateNotification)
  | _, _ => (st, s, [])

/-- `handleUpdateTask`: apply the update through the store; if no task row
matched, return silently; otherwise broadcast `task_updated`. -/
def handleUpdateTask (st : WSState) (s : Store) (c : ConnId) (taskId : Nat)
    (updates : TaskUpdates) : WSState × Store × List Effect :=
  match (st.conns c).userId, (st.conns c).circleId with
  | some uid, some cid =>
      match findTask s.tasks taskId with
      | none => (st, s, [Effect.dbUpdateTask taskId updates])
      | some t =>
          let s1 := { s with tasks := updateTaskRows s.tasks taskId updates }
          (st, s1,
            [Effect.dbUpdateTask taskId updates,
             Effect.broadcast cid
               (Envelope.taskUpdated (applyTaskUpdates t updates) (getUser s1.users uid)) none])
  | _, _ => (st, s, [])

/-- `handleDisconnect`: remove the socket from its owner's client list
(dropping the user when no sockets remain), then remove the user from the
connection's current room and notify the remaining members. -/
def handleDisconnect (st : WSState) (c : ConnId) : WSState × List Effect :=
  match (st.conns c).userId with
  | none => (st, [])
  | some uid =>
      let st1 := match alookup st.clients uid with
        | none => st
        | some l =>
            let l1 := eraseOne l c
            if l1 = [] then { st with clients := aerase st.clients uid }
            else { st with clients := aset st.clients uid l1 }
      match (st.conns c).circleId with
      | none => (st1, [])
      | some cid =>
          match nlookup st1.circleRooms cid with
          | none => (st1, [])
          | some room =>
              let st2 := { st1 with circleRooms := nset st1.circleRooms cid (setDel room uid) }
              (st2, [Effect.broadcast cid (Envelope.userLeft uid) (some uid)])

/-! ### Counting and extraction helpers for the effect traces -/

/-- Occurrences of a connection id in a client list. -/
def countOcc : List ConnId → ConnId → Nat
  | [], _ => 0
  | x :: rest, c => (if x = c then 1 else 0) + countOcc rest c

/-- Occurrences of a user id in a room's member list. -/
def countU : List UserId → UserId → Nat
  | [], _ => 0
  | x :: rest, u => (if x = u then 1 else 0) + countU rest u

/-- Copies delivered to one connection in a resolved send list. -/
def sendCount : List (ConnId × Envelope) → ConnId → Nat
  | [], _ => 0
  | (x, _) :: rest, c => (if x = c then 1 else 0) + sendCount rest c

/-- Whether a trace contains any scheduled-timer effect. -/
def hasTimerEffect : List Effect → Bool
  | [] => false
  | Effect.scheduleTimer _ _ _ :: _ => true
  | _ :: rest => hasTimerEffect rest

/-- Typing-stopped broadcasts (`typing` envelopes with `isTyping = false`) in a trace. -/
def countTypingStopped : List Effect → Nat
  | [] => 0
  | Effect.broadcast _ (Envelope.typing _ _ false) _ :: rest => 1 + countTypingStopped rest
  | _ :: rest => countTypingStopped rest

/-- Notification rows written for a given user in a trace. -/
def countNotifFor : List Effect → UserId → Nat
  | [], _ => 0
  | Effect.dbCreateNotification n :: rest, u =>
      (if n.user_id = u then 1 else 0) + countNotifFor rest u
  | _ :: rest, u => countNotifFor rest u

/-- The items carried by `item_added` broadcasts in a trace, in order. -/
def itemAddedItems : List Effect → List CartItemRec
  | [] => []
  | Effect.broadcast _ (Envelope.itemAdded i) _ :: rest => i :: itemAddedItems rest
  | _ :: rest => itemAddedItems rest

/-- The cart-history rows written in a trace, in order. -/
def historyRows : List Effect → List CartHistoryRec
  | [] => []
  | Effect.dbCreateCartHistory h :: rest => h :: historyRows rest
  | _ :: rest => historyRows rest

/-- The persisted-message effects in a trace, in order. -/
def persistedMessages : List Effect → List MessageRec
  | [] => []
  | Effect.dbCreateMessage m :: rest => m :: persistedMessages rest
  | _ :: rest => persistedMessages rest

/-! ### The vote table viewed per (item, user) pair -/

/-- The vote rows of one (itemId, userId) pair, in table order. -/
def votesFor : List VoteRec → Nat → UserId → List VoteRec
  | [], _, _ => []
  | v :: rest, i, u =>
      if v.item_id = i ∧ v.user_id = u then v :: votesFor rest i u else votesFor rest i u

/-- The uniqueness invariant: at most one vote row per (itemId, userId). -/
def voteInv (l : List VoteRec) : Prop :=
  ∀ i u, (votesFor l i u).length ≤ 1

/-- Run a sequence of `vote_item` requests (connection, itemId, vote), threading
the store through `handleVoteItem`. -/
def runVoteRequests (st : WSState) : Store → List (ConnId × Nat × Int) → Store
  | s, [] => s
  | s, (c, i, v) :: rest => runVoteRequests st (handleVoteItem st s c i v).2.1 rest

/-- The store produced by one `vote_item` request. -/
def voteStore (st : WSState) (s : Store) (c : ConnId) (i : Nat) (v : Int) : Store :=
  (handleVoteItem st s c i v).2.1

/-- A connection is owned by a user when the Connection Registry indexes it
under that user. -/
def ownedBy (st : WSState) (u : UserId) (c : ConnId) : Prop :=
  ∃ l, alookup st.clients u = some l ∧ c ∈ l

/-- Membership rows of a list carrying a given user id. -/
def countMemberIds : List MemberRec → UserId → Nat
  | [], _ => 0
  | m :: rest, u => (if m.user_id = u then 1 else 0) + countMemberIds rest u

/-! ### Shared concrete states for witnesses and counterexamples -/

/-- A connection authenticated as `"u1"` and joined to circle 10. -/
def connInRoom : Conn := { userId := some "u1", circleId := some 10, isOpen := true }

/-- A fresh, unauthenticated connection. -/
def connFresh : Conn := { userId := none, circleId := none, isOpen := true }

/-- Sample manager state: conn 0 is `"u1"` in circle 10, conn 1 is `"u2"` in
circle 10; both registered; the room holds both users. -/
def sampleSt : WSState :=
  { conns := fun c =>
      if c = 0 then connInRoom
      else if c = 1 then { userId := some "u2", circleId := some 10, isOpen := true }
      else connFresh,
    clients := [("u1", [0]), ("u2", [1])],
    circleRooms := [(10, ["u1", "u2"])] }

/-- Sample manager state with conn 0 completely fresh (not authenticated). -/
def sampleStFresh : WSState :=
  { conns := fun _ => connFresh, clients := [], circleRooms := [] }

/-- Sample store: users `"u1"`/`"u2"`, both members of circle 10, circle 10 with
`spent = 0`, and otherwise empty tables. -/
def sampleStore : Store :=
  { users := [⟨"u1", "Ada", "Lovelace"⟩, ⟨"u2", "Alan", "Turing"⟩],
    memberships := [⟨10, "u1"⟩, ⟨10, "u2"⟩],
    circles := [⟨10, 0⟩],
    messages := [], votes := [], cartItems := [], cartHistory := [],
    notifications := [], tasks := [],
    nextMessageId := 1, nextCartItemId := 1 }

/-- Sample store extended with a membership row for u1 in circle 20. -/
def sampleStoreB : Store :=
  { sampleStore with memberships := [⟨10, "u1"⟩, ⟨10, "u2"⟩, ⟨20, "u1"⟩] }

/-! ### Vote-table lemmas -/

lemma votesFor_cons (v : VoteRec) (l : List VoteRec) (i : Nat) (u : UserId) :
    votesFor (v :: l) i u
      = if v.item_id = i ∧ v.user_id = u then v :: votesFor l i u else votesFor l i u := rfl

lemma votesFor_cons_of_ne (v : VoteRec) (l : List VoteRec) {i : Nat} {u : UserId}
    (h : ¬(v.item_id = i ∧ v.user_id = u)) : votesFor (v :: l) i u = votesFor l i u := by
  rw [votesFor_cons, if_neg h]

lemma mem_votesFor {l : List VoteRec} {i : Nat} {u : UserId} {x : VoteRec}
    (h : x ∈ votesFor l i u) : x.item_id = i ∧ x.user_id = u := by
  induction l with
  | nil => simp [votesFor] at h
  | cons v rest ih =>
      rw [votesFor_cons] at h
      by_cases hv : v.item_id = i ∧ v.user_id = u
      · rw [if_pos hv, List.mem_cons] at h
        rcases h with rfl | h
        · exact hv
        · exact ih h
      · rw [if_neg hv] at h
        exact ih h

lemma getItemVote_eq_head (l : List VoteRec) (i : Nat) (u : UserId) :
    getItemVote l i u = (votesFor l i u).head? := by
  induction l with
  | nil => rfl
  | cons v rest ih =>
      by_cases hv : v.item_id = i ∧ v.user_id = u <;>
        simp [getItemVote, votesFor_cons, hv, ih]

lemma votesFor_append (l₁ l₂ : List VoteRec) (i : Nat) (u : UserId) :
    votesFor (l₁ ++ l₂) i u = votesFor l₁ i u ++ votesFor l₂ i u := by
  induction l₁ with
  | nil => rfl
  | cons v rest ih =>
      by_cases hv : v.item_id = i ∧ v.user_id = u <;>
        simp [votesFor_cons, hv, ih]

lemma votesFor_deleteVoteRow_self (l : List VoteRec) (i : Nat) (u : UserId) :
    votesFor (deleteVoteRow l i u) i u = (votesFor l i u).tail := by
  induction l with
  | nil => rfl
  | cons v rest ih =>
      by_cases hv : v.item_id = i ∧ v.user_id = u <;>
        simp [deleteVoteRow, votesFor_cons, hv, ih]

lemma votesFor_deleteVoteRow_other (l : List VoteRec) {i : Nat} {u : UserId}
    {i' : Nat} {u' : UserId} (h : ¬(i' = i ∧ u' = u)) :
    votesFor (deleteVoteRow l i u) i' u' = votesFor l i' u' := by
  induction l with
  | nil => rfl
  | cons v rest ih =>
      by_cases hv : v.item_id = i ∧ v.user_id = u
      · have hv' : ¬(v.item_id = i' ∧ v.user_id = u') := by
          rintro ⟨h1, h2⟩
          exact h ⟨by rw [← h1, hv.1], by rw [← h2, hv.2]⟩
        rw [show deleteVoteRow (v :: rest) i u = rest from by simp [deleteVoteRow, hv],
            votesFor_cons_of_ne v rest hv']
      · rw [show deleteVoteRow (v :: rest) i u = v :: deleteVoteRow rest i u from by
              simp [deleteVoteRow, hv]]
        by_cases hv' : v.item_id = i' ∧ v.user_id = u'
        · rw [votesFor_cons, if_pos hv', votesFor_cons, if_pos hv', ih]
        · rw [votesFor_cons_of_ne v _ hv', votesFor_cons_of_ne v rest hv', ih]

lemma votesFor_updateVoteRow_self (l : List VoteRec) (i : Nat) (u : UserId) (w : Int) :
    votesFor (updateVoteRow l i u w) i u
      = match votesFor l i u with
        | [] => []
        | x :: rest => { x with vote := w } :: rest := by
  induction l with
  | nil => rfl
  | cons v rest ih =>
      by_cases hv : v.item_id = i ∧ v.user_id = u <;>
        simp [updateVoteRow, votesFor_cons, hv, ih]

lemma votesFor_updateVoteRow_other (l : List VoteRec) {i : Nat} {u : UserId}
    {i' : Nat} {u' : UserId} (w : Int) (h : ¬(i' = i ∧ u' = u)) :
    votesFor (updateVoteRow l i u w) i' u' = votesFor l i' u' := by
  induction l with
  | nil => rfl
  | cons v rest ih =>
      by_cases hv : v.item_id = i ∧ v.user_id = u
      · have hv' : ¬(v.item_id = i' ∧ v.user_id = u') := by
          rintro ⟨h1, h2⟩
          exact h ⟨by rw [← h1, hv.1], by rw [← h2, hv.2]⟩
        rw [show updateVoteRow (v :: rest) i u w = { v with vote := w } :: rest from by
              simp [updateVoteRow, hv],
            votesFor_cons_of_ne { v with vote := w } rest (by simpa using hv'),
            votesFor_cons_of_ne v rest hv']
      · rw [show updateVoteRow (v :: rest) i u w = v :: updateVoteRow rest i u w from by
              simp [updateVoteRow, hv]]
        by_cases hv' : v.item_id = i' ∧ v.user_id = u'
        · rw [votesFor_cons, if_pos hv', votesFor_cons, if_pos hv', ih]
        · rw [votesFor_cons_of_ne v _ hv', votesFor_cons_of_ne v rest hv', ih]

lemma voteStore_of_none {st : WSState} {s : Store} {c : ConnId} {uid : UserId}
    {cid : CircleId} (i : Nat) (v : Int)
    (hu : (st.conns c).userId = some uid) (hr : (st.conns c).circleId = some cid)
    (hv : getItemVote s.votes i uid = none) :
    (voteStore st s c i v).votes = s.votes ++ [⟨i, uid, v⟩] := by
  simp [voteStore, handleVoteItem, hu, hr, hv]

lemma voteStore_of_same {st : WSState} {s : Store} {c : ConnId} {uid : UserId}
    {cid : CircleId} {i : Nat} {v : Int} {ex : VoteRec}
    (hu : (st.conns c).userId = some uid) (hr : (st.conns c).circleId = some cid)
    (hv : getItemVote s.votes i uid = some ex) (hsame : ex.vote = v) :
    (voteStore st s c i v).votes = deleteVoteRow s.votes i uid := by
  simp [voteStore, handleVoteItem, hu, hr, hv, hsame]

lemma voteStore_of_diff {st : WSState} {s : Store} {c : ConnId} {uid : UserId}
    {cid : CircleId} {i : Nat} {v : Int} {ex : VoteRec}
    (hu : (st.conns c).userId = some uid) (hr : (st.conns c).circleId = some cid)
    (hv : getItemVote s.votes i uid = some ex) (hdiff : ¬ ex.vote = v) :
    (voteStore st s c i v).votes = updateVoteRow s.votes i uid v := by
  simp [voteStore, handleVoteItem, hu, hr, hv, hdiff]

/-- One `vote_item` request preserves the at-most-one-row invariant, whatever
state the connection is in. -/
lemma voteInv_step (st : WSState) (s : Store) (c : ConnId) (i : Nat) (v : Int)
    (hinv : voteInv s.votes) : voteInv (voteStore st s c i v).votes := by
  cases hu : (st.conns c).userId with
  | none => simpa [voteStore, handleVoteItem, hu] using hinv
  | some uid =>
    cases hr : (st.conns c).circleId with
    | none => simpa [voteStore, handleVoteItem, hu, hr] using hinv
    | some cid =>
      cases hv : getItemVote s.votes i uid with
      | none =>
          intro i' u'
          rw [voteStore_of_none i v hu hr hv, votesFor_append]
          by_cases hp : i' = i ∧ u' = uid
          · obtain ⟨rfl, rfl⟩ := hp
            have h0 : votesFor s.votes i' u' = [] := by
              have hh := getItemVote_eq_head s.votes i' u'
              rw [hv] at hh
              exact (List.head?_eq_none_iff).mp hh.symm
            simp [h0, votesFor]
          · rw [votesFor_cons_of_ne (⟨i, uid, v⟩ : VoteRec) []
                  (by rintro ⟨h1, h2⟩; exact hp ⟨h1.symm, h2.symm⟩)]
            simpa using hinv i' u'
      | some ex =>
          by_cases hsame : ex.vote = v
          · intro i' u'
            rw [voteStore_of_same hu hr hv hsame]
            by_cases hp : i' = i ∧ u' = uid
            · obtain ⟨rfl, rfl⟩ := hp
              rw [votesFor_deleteVoteRow_self, List.length_tail]
              have := hinv i' u'
              omega
            · rw [votesFor_deleteVoteRow_other _ hp]
              exact hinv i' u'
          · intro i' u'
            rw [voteStore_of_diff hu hr hv hsame]
            by_cases hp : i' = i ∧ u' = uid
            · obtain ⟨rfl, rfl⟩ := hp
              rw [votesFor_updateVoteRow_self]
              cases hvf : votesFor s.votes i' u' with
              | nil => simp
              | cons x rest =>
                  have hl := hinv i' u'
                  rw [hvf] at hl
                  simpa using hl
            · rw [votesFor_updateVoteRow_other _ _ hp]
              exact hinv i' u'

/-- C1: a `vote_item` request from a connection in a room applies exactly the
three-case toggle to the (itemId, userId) vote row — create when absent, delete
when equal, update when different — no sequence of `vote_item` requests ever
leaves two vote rows for one (itemId, userId) pair, and voting the same value
twice in a row (from no existing vote) leaves zero rows for the pair. -/
theorem vote_item_three_case_toggle
    (st : WSState) (s : Store) (c : ConnId) (uid : UserId) (cid : CircleId)
    (i : Nat) (v : Int)
    (hu : (st.conns c).userId = some uid) (hr : (st.conns c).circleId = some cid)
    (hinv : voteInv s.votes) :
    (getItemVote s.votes i uid = none →
       votesFor (voteStore st s c i v).votes i uid = [⟨i, uid, v⟩])
    ∧ (∀ ex, getItemVote s.votes i uid = some ex → ex.vote = v →
       votesFor (voteStore st s c i v).votes i uid = [])
    ∧ (∀ ex, getItemVote s.votes i uid = some ex → ex.vote ≠ v →
       votesFor (voteStore st s c i v).votes i uid = [⟨i, uid, v⟩])
    ∧ (∀ reqs : List (ConnId × Nat × Int), voteInv (runVoteRequests st s reqs).votes)
    ∧ (getItemVote s.votes i uid = none →
       votesFor (runVoteRequests st s [(c, i, v), (c, i, v)]).votes i uid = []) := by
  have hsingle : ∀ ex, getItemVote s.votes i uid = some ex →
      votesFor s.votes i uid = [ex] := by
    intro ex hex
    have hh := getItemVote_eq_head s.votes i uid
    rw [hex] at hh
    cases hvf : votesFor s.votes i uid with
    | nil => rw [hvf] at hh; exact absurd hh.symm (by simp)
    | cons x rest =>
        rw [hvf] at hh
        have hx : x = ex := by simpa using hh.symm
        have hl := hinv i uid
        rw [hvf] at hl
        have : rest = [] := by
          cases rest with
          | nil => rfl
          | cons y t => simp at hl
        rw [hx, this]
  have hcreate : getItemVote s.votes i uid = none →
      votesFor (voteStore st s c i v).votes i uid = [⟨i, uid, v⟩] := by
    intro hv
    rw [voteStore_of_none i v hu hr hv, votesFor_append]
    have h0 : votesFor s.votes i uid = [] := by
      have hh := getItemVote_eq_head s.votes i uid
      rw [hv] at hh
      exact (List.head?_eq_none_iff).mp hh.symm
    simp [h0, votesFor]
  have hdelete : ∀ ex, getItemVote s.votes i uid = some ex → ex.vote = v →
      votesFor (voteStore st s c i v).votes i uid = [] := by
    intro ex hex hsame
    rw [voteStore_of_same hu hr hex hsame, votesFor_deleteVoteRow_self, hsingle ex hex]
    rfl
  have hupdate : ∀ ex, getItemVote s.votes i uid = some ex → ex.vote ≠ v →
      votesFor (voteStore st s c i v).votes i uid = [⟨i, uid, v⟩] := by
    intro ex hex hdiff
    rw [voteStore_of_diff hu hr hex hdiff, votesFor_updateVoteRow_self, hsingle ex hex]
    have hmem : ex ∈ votesFor s.votes i uid := by rw [hsingle ex hex]; simp
    obtain ⟨h1, h2⟩ := mem_votesFor hmem
    cases ex
    simp_all
  refine ⟨hcreate, hdelete, hupdate, ?_, ?_⟩
  · have hrun : ∀ (reqs : List (ConnId × Nat × Int)) (s' : Store), voteInv s'.votes →
        voteInv (runVoteRequests st s' reqs).votes := by
      intro reqs
      induction reqs with
      | nil => intro s' h; exact h
      | cons r rest ih =>
          intro s' h
          exact ih _ (voteInv_step st s' r.1 r.2.1 r.2.2 h)
    exact fun reqs => hrun reqs s hinv
  · intro hv
    have h1 : votesFor (voteStore st s c i v).votes i uid = [⟨i, uid, v⟩] := hcreate hv
    have hinv1 : voteInv (voteStore st s c i v).votes := voteInv_step st s c i v hinv
    have hex1 : getItemVote (voteStore st s c i v).votes i uid = some ⟨i, uid, v⟩ := by
      rw [getItemVote_eq_head, h1]; rfl
    have h2 : votesFor (voteStore st (voteStore st s c i v) c i v).votes i uid = [] := by
      rw [voteStore_of_same hu hr hex1 rfl, votesFor_deleteVoteRow_self, h1]
      rfl
    exact h2

/-- C1 witness: a concrete run on the sample state — voting +1 twice on item 5
from an empty vote table leaves zero rows for (5, "u1"). -/
theorem vote_item_three_case_toggle_witness :
    (sampleSt.conns 0).userId = some "u1"
    ∧ (sampleSt.conns 0).circleId = some 10
    ∧ voteInv sampleStore.votes
    ∧ votesFor (runVoteRequests sampleSt sampleStore [(0, 5, 1), (0, 5, 1)]).votes 5 "u1"
        = [] := by
  have hinv : voteInv sampleStore.votes := by
    intro i u
    rw [show votesFor sampleStore.votes i u = [] from rfl]
    simp
  exact ⟨rfl, rfl, hinv,
    (vote_item_three_case_toggle sampleSt sampleStore 0 "u1" 10 5 1 rfl rfl hinv).2.2.2.2 rfl⟩

/-! ### Map and broadcast-resolution lemmas -/

lemma alookup_aset_self {β : Type} (l : List (String × β)) (k : String) (v : β) :
    alookup (aset l k v) k = some v := by
  induction l with
  | nil => simp [aset, alookup]
  | cons p rest ih =>
      by_cases h : p.1 = k <;> simp [aset, alookup, h, ih]

lemma alookup_aset_ne {β : Type} (l : List (String × β)) {k k' : String} (v : β)
    (h : k' ≠ k) : alookup (aset l k v) k' = alookup l k' := by
  have hk : ¬ k = k' := fun hh => h hh.symm
  induction l with
  | nil => simp [aset, alookup, hk]
  | cons p rest ih =>
      by_cases hp : p.1 = k
      · simp [aset, alookup, hp, hk, h]
      · by_cases hp' : p.1 = k' <;> simp [aset, alookup, hp, hp', hk, h, ih]

lemma alookup_aerase_self {β : Type} (l : List (String × β)) (k : String) :
    alookup (aerase l k) k = none := by
  induction l with
  | nil => rfl
  | cons p rest ih =>
      by_cases h : p.1 = k <;> simp [aerase, alookup, h, ih]

lemma nlookup_nset_self {β : Type} (l : List (Nat × β)) (k : Nat) (v : β) :
    nlookup (nset l k v) k = some v := by
  induction l with
  | nil => simp [nset, nlookup]
  | cons p rest ih =>
      by_cases h : p.1 = k <;> simp [nset, nlookup, h, ih]

lemma nlookup_nset_ne {β : Type} (l : List (Nat × β)) {k k' : Nat} (v : β)
    (h : k' ≠ k) : nlookup (nset l k v) k' = nlookup l k' := by
  have hk : ¬ k = k' := fun hh => h hh.symm
  induction l with
  | nil => simp [nset, nlookup, hk]
  | cons p rest ih =>
      by_cases hp : p.1 = k
      · simp [nset, nlookup, hp, hk, h]
      · by_cases hp' : p.1 = k' <;> simp [nset, nlookup, hp, hp', hk, h, ih]

lemma not_mem_setDel_self (l : List UserId) (u : UserId) : u ∉ setDel l u := by
  induction l with
  | nil => simp [setDel]
  | cons x rest ih =>
      by_cases h : x = u <;> simp [setDel, h, ih]
      exact fun hh => h hh.symm

lemma countOcc_eq_zero_of_not_mem {l : List ConnId} {c : ConnId} (h : c ∉ l) :
    countOcc l c = 0 := by
  induction l with
  | nil => rfl
  | cons x rest ih =>
      have hx : ¬ x = c := fun hh => h (hh ▸ List.mem_cons_self x rest)
      simp [countOcc, hx]
      exact ih (fun hh => h (List.mem_cons_of_mem x hh))

lemma countOcc_le_one_of_nodup {l : List ConnId} (h : l.Nodup) (c : ConnId) :
    countOcc l c ≤ 1 := by
  induction l with
  | nil => simp [countOcc]
  | cons x rest ih =>
      rw [List.nodup_cons] at h
      by_cases hx : x = c
      · subst hx
        simp [countOcc, countOcc_eq_zero_of_not_mem h.1]
      · simp [countOcc, hx]
        exact ih h.2

lemma one_le_countOcc_of_mem {l : List ConnId} {c : ConnId} (h : c ∈ l) :
    1 ≤ countOcc l c := by
  induction l with
  | nil => simp at h
  | cons x rest ih =>
      by_cases hx : x = c
      · simp [countOcc, hx]
      · rw [List.mem_cons] at h
        rcases h with h | h
        · exact absurd h.symm hx
        · have := ih h
          simp only [countOcc, if_neg hx]
          omega

lemma sendCount_append (l₁ l₂ : List (ConnId × Envelope)) (c : ConnId) :
    sendCount (l₁ ++ l₂) c = sendCount l₁ c + sendCount l₂ c := by
  induction l₁ with
  | nil => simp [sendCount]
  | cons p rest ih =>
      obtain ⟨x, e⟩ := p
      show (if x = c then 1 else 0) + sendCount (rest ++ l₂) c
        = (if x = c then 1 else 0) + sendCount rest c + sendCount l₂ c
      rw [ih, Nat.add_assoc]

lemma openSends_count (st : WSState) (l : List ConnId) (env : Envelope) (c : ConnId) :
    sendCount (openSends st l env) c
      = if (st.conns c).isOpen = true then countOcc l c else 0 := by
  induction l with
  | nil => simp [openSends, countOcc, sendCount]
  | cons x rest ih =>
      by_cases hx : x = c
      · subst hx
        by_cases ho : (st.conns x).isOpen = true
        · simp [openSends, ho, sendCount, countOcc, ih]
        · simp [openSends, Bool.of_not_eq_true ho, sendCount, countOcc, ih, ho]
      · by_cases ho : (st.conns x).isOpen = true
        · simp [openSends, ho, sendCount, countOcc, hx, ih]
        · simp [openSends, Bool.of_not_eq_true ho, sendCount, countOcc, hx, ih]

lemma sendToUser_count_of_lookup (st : WSState) {u : UserId} {l : List ConnId}
    (env : Envelope) (c : ConnId) (h : alookup st.clients u = some l) :
    sendCount (sendToUser st u env) c
      = if (st.conns c).isOpen = true then countOcc l c else 0 := by
  rw [show sendToUser st u env = openSends st l env from by simp [sendToUser, h]]
  exact openSends_count st l env c

lemma sendToUser_count_of_none (st : WSState) {u : UserId} (env : Envelope) (c : ConnId)
    (h : alookup st.clients u = none) : sendCount (sendToUser st u env) c = 0 := by
  simp [sendToUser, h, sendCount]

lemma deliverAll_count_zero (st : WSState) (env : Envelope) (ex : Option UserId)
    (c : ConnId) (h : ∀ u, ex ≠ some u → sendCount (sendToUser st u env) c = 0) :
    ∀ room, sendCount (deliverAll st room env ex) c = 0 := by
  intro room
  induction room with
  | nil => rfl
  | cons u rest ih =>
      simp only [deliverAll, sendCount_append, ih, Nat.add_zero]
      by_cases hu : ex = some u
      · rw [if_pos hu]; rfl
      · rw [if_neg hu]; exact h u hu

lemma deliverAll_count_single (st : WSState) (env : Envelope) (ex : Option UserId)
    (c : ConnId) (u0 : UserId)
    (h0 : sendCount (sendToUser st u0 env) c = 1) (hex : ex ≠ some u0)
    (hothers : ∀ u, u ≠ u0 → sendCount (sendToUser st u env) c = 0) :
    ∀ room, sendCount (deliverAll st room env ex) c = countU room u0 := by
  intro room
  induction room with
  | nil => rfl
  | cons u rest ih =>
      simp only [deliverAll, sendCount_append, ih, countU]
      by_cases hu : u = u0
      · subst hu
        rw [if_neg hex, h0, if_pos rfl]
      · rw [if_neg hu]
        by_cases hx : ex = some u
        · rw [if_pos hx]; rfl
        · rw [if_neg hx, hothers u hu]

lemma deliverAll_count_ge (st : WSState) (env : Envelope) (ex : Option UserId)
    (c : ConnId) (u0 : UserId) (hex : ex ≠ some u0) :
    ∀ room, u0 ∈ room →
      sendCount (sendToUser st u0 env) c ≤ sendCount (deliverAll st room env ex) c := by
  intro room
  induction room with
  | nil => intro h; simp at h
  | cons u rest ih =>
      intro hmem
      simp only [deliverAll, sendCount_append]
      rw [List.mem_cons] at hmem
      rcases hmem with rfl | hmem
      · rw [if_neg hex]
        exact Nat.le_add_right _ _
      · exact le_trans (ih hmem) (Nat.le_add_left _ _)

lemma countOcc_append (l₁ l₂ : List ConnId) (c : ConnId) :
    countOcc (l₁ ++ l₂) c = countOcc l₁ c + countOcc l₂ c := by
  induction l₁ with
  | nil => simp [countOcc]
  | cons x rest ih =>
      show (if x = c then 1 else 0) + countOcc (rest ++ l₂) c
        = (if x = c then 1 else 0) + countOcc rest c + countOcc l₂ c
      rw [ih, Nat.add_assoc]

lemma openSends_congr {st₁ st₂ : WSState}
    (h : ∀ x, (st₁.conns x).isOpen = (st₂.conns x).isOpen) :
    ∀ (l : List ConnId) (env : Envelope), openSends st₁ l env = openSends st₂ l env := by
  intro l env
  induction l with
  | nil => rfl
  | cons x rest ih => simp only [openSends, h x, ih]

lemma sendToUser_congr {st₁ st₂ : WSState}
    (hcl : st₁.clients = st₂.clients)
    (h : ∀ x, (st₁.conns x).isOpen = (st₂.conns x).isOpen) (u : UserId) (env : Envelope) :
    sendToUser st₁ u env = sendToUser st₂ u env := by
  unfold sendToUser
  rw [hcl]
  cases alookup st₂.clients u with
  | none => rfl
  | some l => exact openSends_congr h l env

lemma deliverAll_congr {st₁ st₂ : WSState}
    (hcl : st₁.clients = st₂.clients)
    (h : ∀ x, (st₁.conns x).isOpen = (st₂.conns x).isOpen) :
    ∀ (room : List UserId) (env : Envelope) (ex : Option UserId),
      deliverAll st₁ room env ex = deliverAll st₂ room env ex := by
  intro room env ex
  induction room with
  | nil => rfl
  | cons u rest ih =>
      simp only [deliverAll, ih, sendToUser_congr hcl h u env]

lemma countNotifFor_map (f : MemberRec → NotificationRec)
    (hf : ∀ m, (f m).user_id = m.user_id) (l : List MemberRec) (u : UserId) :
    countNotifFor (l.map (fun m => Effect.dbCreateNotification (f m))) u
      = countMemberIds l u := by
  induction l with
  | nil => rfl
  | cons m rest ih =>
      simp only [List.map_cons, countNotifFor, countMemberIds, hf m, ih]

lemma countMemberIds_othersOf_self (uid : UserId) (l : List MemberRec) :
    countMemberIds (othersOf uid l) uid = 0 := by
  induction l with
  | nil => rfl
  | cons m rest ih =>
      by_cases h : m.user_id = uid <;> simp [othersOf, countMemberIds, h, ih]

lemma countMemberIds_othersOf_ne (uid : UserId) {u' : UserId} (l : List MemberRec)
    (h : u' ≠ uid) : countMemberIds (othersOf uid l) u' = countMemberIds l u' := by
  induction l with
  | nil => rfl
  | cons m rest ih =>
      by_cases hm : m.user_id = uid
      · have hm' : ¬ m.user_id = u' := fun hh => h (by rw [← hh, hm])
        rw [show othersOf uid (m :: rest) = othersOf uid rest from by simp [othersOf, hm], ih]
        simp [countMemberIds, hm']
      · rw [show othersOf uid (m :: rest) = m :: othersOf uid rest from by simp [othersOf, hm]]
        simp only [countMemberIds, ih]

lemma countNotifFor_append (l₁ l₂ : List Effect) (u : UserId) :
    countNotifFor (l₁ ++ l₂) u = countNotifFor l₁ u + countNotifFor l₂ u := by
  induction l₁ with
  | nil => simp [countNotifFor]
  | cons e rest ih =>
      cases e <;>
        (simp only [List.cons_append, countNotifFor, List.append_eq, ih]; try omega)

lemma itemAddedItems_append (l₁ l₂ : List Effect) :
    itemAddedItems (l₁ ++ l₂) = itemAddedItems l₁ ++ itemAddedItems l₂ := by
  induction l₁ with
  | nil => rfl
  | cons e rest ih =>
      cases e with
      | broadcast cid env ex =>
          cases env <;>
            simp only [List.cons_append, itemAddedItems, List.append_eq, ih, List.nil_append]
      | _ => simp only [List.cons_append, itemAddedItems, List.append_eq, ih]

lemma historyRows_append (l₁ l₂ : List Effect) :
    historyRows (l₁ ++ l₂) = historyRows l₁ ++ historyRows l₂ := by
  induction l₁ with
  | nil => rfl
  | cons e rest ih =>
      cases e <;> simp only [List.cons_append, historyRows, List.append_eq, ih]

lemma itemAddedItems_map_notifs {α : Type} (f : α → NotificationRec) (l : List α) :
    itemAddedItems (l.map (fun m => Effect.dbCreateNotification (f m))) = [] := by
  induction l with
  | nil => rfl
  | cons n rest ih => simp only [List.map_cons, itemAddedItems, ih]

lemma historyRows_map_notifs {α : Type} (f : α → NotificationRec) (l : List α) :
    historyRows (l.map (fun m => Effect.dbCreateNotification (f m))) = [] := by
  induction l with
  | nil => rfl
  | cons n rest ih => simp only [List.map_cons, historyRows, ih]

lemma getCircle_cons_pos {x : CircleRec} {rest : List CircleRec} {cid : CircleId}
    (h : x.id = cid) : getCircle (x :: rest) cid = some x := by
  simp [getCircle, h]

lemma getCircle_cons_neg {x : CircleRec} {rest : List CircleRec} {cid : CircleId}
    (h : ¬ x.id = cid) : getCircle (x :: rest) cid = getCircle rest cid := by
  simp [getCircle, h]

lemma getCircle_updateCircleSpent {l : List CircleRec} {cid : CircleId} {circ : CircleRec}
    (v : Int) (h : getCircle l cid = some circ) :
    getCircle (updateCircleSpent l cid v) cid = some { circ with spent := v } := by
  induction l with
  | nil => exact absurd h (by simp [getCircle])
  | cons x rest ih =>
      by_cases hx : x.id = cid
      · rw [getCircle_cons_pos hx] at h
        simp only [updateCircleSpent, if_pos hx]
        rw [getCircle_cons_pos (show ({ x with spent := v } : CircleRec).id = cid from hx),
            Option.some_inj.mp h]
      · rw [getCircle_cons_neg hx] at h
        simp only [updateCircleSpent, if_neg hx]
        rw [getCircle_cons_neg hx, ih h]

lemma jsRound_cents : jsRound ((250 : ℚ) * 100) = 25000 := by
  norm_num [jsRound]

/-- C5 counterexample: duplicate registration is reachable — after a second
valid `auth` envelope from conn 1 (already registered for u2), the registry
holds conn 1 twice, and a room-10 broadcast excluding u1 delivers two copies,
not exactly one, to that single open connection owned by the non-excluded
present user u2. -/
theorem broadcast_duplicate_entry_counterexample :
    alookup (handleAuth (fun t => if t = "tok2" then some "u2" else none)
        sampleSt 1 "tok2").1.clients "u2" = some [1, 1]
    ∧ sendCount (broadcastDeliveries
        (handleAuth (fun t => if t = "tok2" then some "u2" else none) sampleSt 1 "tok2").1
        10 (Envelope.userJoined "u1") (some "u1")) 1 = 2
    ∧ (2 : Nat) ≠ 1 := by
  refine ⟨by decide, by decide, by decide⟩

/-- C5 amended: a `broadcastToCircle(roomId, envelope, excludeUserId = U)` call
delivers zero copies to every connection the registry indexes under `U`, and
exactly one copy to each open connection of every other user present in the
room, provided the Connection Registry is well-formed — no connection
registered twice, within or across users (re-authentication violates this and
then a connection receives one copy per registry entry) — and the room has set
semantics (each present user listed once). -/
theorem broadcast_excludes_and_delivers_once
    (st : WSState) (r : CircleId) (room : List UserId) (env : Envelope) (U : UserId)
    (hroom : nlookup st.circleRooms r = some room)
    (hnodup : ∀ u l, alookup st.clients u = some l → l.Nodup)
    (hdisj : ∀ u v lu lv c2, u ≠ v → alookup st.clients u = some lu →
        alookup st.clients v = some lv → c2 ∈ lu → c2 ∉ lv) :
    (∀ c2, ownedBy st U c2 → sendCount (broadcastDeliveries st r env (some U)) c2 = 0)
    ∧ (∀ u c2, u ≠ U → countU room u = 1 → ownedBy st u c2 →
        (st.conns c2).isOpen = true →
        sendCount (broadcastDeliveries st r env (some U)) c2 = 1) := by
  have hbd : broadcastDeliveries st r env (some U) = deliverAll st room env (some U) := by
    simp [broadcastDeliveries, hroom]
  constructor
  · rintro c2 ⟨lU, hlU, hc2⟩
    rw [hbd]
    apply deliverAll_count_zero
    intro u hne
    have huU : U ≠ u := fun hh => hne (by rw [hh])
    cases hlu : alookup st.clients u with
    | none => exact sendToUser_count_of_none st env c2 hlu
    | some lu =>
        have hnot : c2 ∉ lu := hdisj U u lU lu c2 huU hlU hlu hc2
        rw [sendToUser_count_of_lookup st env c2 hlu, countOcc_eq_zero_of_not_mem hnot]
        simp
  · rintro u c2 huU hcount ⟨lu, hlu, hc2⟩ hopen
    rw [hbd]
    have h0 : sendCount (sendToUser st u env) c2 = 1 := by
      rw [sendToUser_count_of_lookup st env c2 hlu, if_pos hopen]
      exact le_antisymm (countOcc_le_one_of_nodup (hnodup u lu hlu) c2)
        (one_le_countOcc_of_mem hc2)
    have hex : (some U : Option UserId) ≠ some u := fun hh => huU (by injection hh with hh; rw [hh])
    have hothers : ∀ u', u' ≠ u → sendCount (sendToUser st u' env) c2 = 0 := by
      intro u' hne
      cases hlu' : alookup st.clients u' with
      | none => exact sendToUser_count_of_none st env c2 hlu'
      | some lu' =>
          have hnot : c2 ∉ lu' := hdisj u u' lu lu' c2 (fun hh => hne hh.symm) hlu hlu' hc2
          rw [sendToUser_count_of_lookup st env c2 hlu', countOcc_eq_zero_of_not_mem hnot]
          simp
    rw [deliverAll_count_single st env (some U) c2 u h0 hex hothers room, hcount]

/-- C5 witness: on the sample state (room 10 = u1, u2; u1 owns conn 0, u2 owns
conn 1), a broadcast excluding u1 reaches conn 0 zero times and conn 1 once. -/
theorem broadcast_excludes_and_delivers_once_witness :
    nlookup sampleSt.circleRooms 10 = some ["u1", "u2"]
    ∧ sendCount (broadcastDeliveries sampleSt 10 (Envelope.userJoined "u1") (some "u1")) 0 = 0
    ∧ sendCount (broadcastDeliveries sampleSt 10 (Envelope.userJoined "u1") (some "u1")) 1
        = 1 := by
  have hchar : ∀ u l, alookup sampleSt.clients u = some l →
      (u = "u1" ∧ l = [0]) ∨ (u = "u2" ∧ l = [1]) := by
    intro u l h
    simp only [sampleSt, alookup] at h
    split_ifs at h with h1 h2
    · exact Or.inl ⟨h1.symm, (Option.some_inj.mp h).symm⟩
    · exact Or.inr ⟨h2.symm, (Option.some_inj.mp h).symm⟩
  have hnodup : ∀ u l, alookup sampleSt.clients u = some l → l.Nodup := by
    intro u l h
    rcases hchar u l h with ⟨_, rfl⟩ | ⟨_, rfl⟩ <;> simp
  have hdisj : ∀ u v lu lv c2, u ≠ v → alookup sampleSt.clients u = some lu →
      alookup sampleSt.clients v = some lv → c2 ∈ lu → c2 ∉ lv := by
    intro u v lu lv c2 huv hu hv hmem
    rcases hchar u lu hu with ⟨hu1, rfl⟩ | ⟨hu1, rfl⟩ <;>
      rcases hchar v lv hv with ⟨hv1, rfl⟩ | ⟨hv1, rfl⟩
    · exact absurd (hu1.trans hv1.symm) huv
    · simp at hmem; simp [hmem]
    · simp at hmem; simp [hmem]
    · exact absurd (hu1.trans hv1.symm) huv
  have hthm := broadcast_excludes_and_delivers_once sampleSt 10 ["u1", "u2"]
    (Envelope.userJoined "u1") "u1" (by decide) hnodup hdisj
  exact ⟨by decide,
    hthm.1 0 ⟨[0], by decide, by decide⟩,
    hthm.2 "u2" 1 (by decide) (by decide) ⟨[1], by decide, by decide⟩ (by decide)⟩

/-- C9: a second valid `auth` envelope from an already-registered connection
appends the same connection to its user's registry list again without
deduplication, so a broadcast reaching that user delivers one copy per registry
entry — at least two copies to that single connection. -/
theorem duplicate_auth_duplicates_registration
    (verify : String → Option UserId) (st : WSState) (c : ConnId) (tok : String)
    (uid : UserId) (l : List ConnId)
    (hver : verify tok = some uid)
    (hcl : alookup st.clients uid = some l)
    (hmem : c ∈ l) :
    alookup (handleAuth verify st c tok).1.clients uid = some (l ++ [c])
    ∧ 2 ≤ countOcc (l ++ [c]) c
    ∧ (∀ r room env, nlookup st.circleRooms r = some room → uid ∈ room →
        (st.conns c).isOpen = true →
        2 ≤ sendCount (broadcastDeliveries (handleAuth verify st c tok).1 r env none) c) := by
  have hform : (handleAuth verify st c tok).1
      = { st with
            conns := fun x => if x = c then { st.conns c with userId := some uid }
                              else st.conns x,
            clients := aset st.clients uid (l ++ [c]) } := by
    simp [handleAuth, hver, setConn, hcl]
  have hcount : 2 ≤ countOcc (l ++ [c]) c := by
    have h2 : countOcc [c] c = 1 := by simp [countOcc]
    rw [countOcc_append, h2]
    have h1 := one_le_countOcc_of_mem hmem
    omega
  refine ⟨by rw [hform]; exact alookup_aset_self _ _ _, hcount, ?_⟩
  intro r room env hroomEq hmemRoom hopen
  have hrooms : nlookup (handleAuth verify st c tok).1.circleRooms r = some room := by
    rw [hform]; exact hroomEq
  have hbd : broadcastDeliveries (handleAuth verify st c tok).1 r env none
      = deliverAll (handleAuth verify st c tok).1 room env none := by
    simp [broadcastDeliveries, hrooms]
  have hopen' : ((handleAuth verify st c tok).1.conns c).isOpen = true := by
    rw [hform]
    simpa using hopen
  have hlook : alookup (handleAuth verify st c tok).1.clients uid = some (l ++ [c]) := by
    rw [hform]; exact alookup_aset_self _ _ _
  have hstu : sendCount (sendToUser (handleAuth verify st c tok).1 uid env) c
      = countOcc (l ++ [c]) c := by
    rw [sendToUser_count_of_lookup _ env c hlook, if_pos hopen']
  have hge := deliverAll_count_ge (handleAuth verify st c tok).1 env none c uid
    (by simp) room hmemRoom
  rw [hbd]
  rw [hstu] at hge
  omega

/-- C9 witness: conn 0 (already registered for u1) re-authenticates as u1; its
registry list becomes `[0, 0]` and a room-10 broadcast reaches it twice. -/
theorem duplicate_auth_duplicates_registration_witness :
    (fun t => if t = "tok1" then some "u1" else none) "tok1" = some "u1"
    ∧ alookup sampleSt.clients "u1" = some [0]
    ∧ alookup (handleAuth (fun t => if t = "tok1" then some "u1" else none)
        sampleSt 0 "tok1").1.clients "u1" = some [0, 0]
    ∧ 2 ≤ sendCount (broadcastDeliveries
        (handleAuth (fun t => if t = "tok1" then some "u1" else none) sampleSt 0 "tok1").1
        10 (Envelope.userJoined "u2") none) 0 := by
  have hthm := duplicate_auth_duplicates_registration
    (fun t => if t = "tok1" then some "u1" else none) sampleSt 0 "tok1" "u1" [0]
    (by decide) (by decide) (by decide)
  exact ⟨by decide, by decide, hthm.1,
    hthm.2.2 10 ["u1", "u2"] (Envelope.userJoined "u2") (by decide) (by decide) (by decide)⟩

/-- C6: disconnecting a connection that was its user's only live connection
drops the user from the Connection Registry entirely, removes the user from the
presence set of the connection's current room, and emits exactly one
`user_left` broadcast to that room excluding the departing user (so only the
remaining members receive it). -/
theorem disconnect_removes_last_connection
    (st : WSState) (c : ConnId) (uid : UserId) (cid : CircleId) (room : List UserId)
    (hu : (st.conns c).userId = some uid)
    (hr : (st.conns c).circleId = some cid)
    (hcl : alookup st.clients uid = some [c])
    (hroom : nlookup st.circleRooms cid = some room) :
    alookup (handleDisconnect st c).1.clients uid = none
    ∧ nlookup (handleDisconnect st c).1.circleRooms cid = some (setDel room uid)
    ∧ uid ∉ setDel room uid
    ∧ (handleDisconnect st c).2 = [Effect.broadcast cid (Envelope.userLeft uid) (some uid)] := by
  have hform : handleDisconnect st c
      = ({ st with clients := aerase st.clients uid,
                   circleRooms := nset st.circleRooms cid (setDel room uid) },
         [Effect.broadcast cid (Envelope.userLeft uid) (some uid)]) := by
    simp [handleDisconnect, hu, hr, hcl, hroom, eraseOne]
  rw [hform]
  exact ⟨alookup_aerase_self _ _, nlookup_nset_self _ _ _, not_mem_setDel_self room uid, rfl⟩

/-- C6 witness: conn 0 is u1's only connection and is joined to room 10; after
disconnect u1 is gone from the registry, room 10 = u2 only, one `user_left`. -/
theorem disconnect_removes_last_connection_witness :
    (sampleSt.conns 0).userId = some "u1"
    ∧ alookup sampleSt.clients "u1" = some [0]
    ∧ alookup (handleDisconnect sampleSt 0).1.clients "u1" = none
    ∧ nlookup (handleDisconnect sampleSt 0).1.circleRooms 10 = some ["u2"]
    ∧ (handleDisconnect sampleSt 0).2
        = [Effect.broadcast 10 (Envelope.userLeft "u1") (some "u1")] := by
  have hthm := disconnect_removes_last_connection sampleSt 0 "u1" 10 ["u1", "u2"]
    (by decide) (by decide) (by decide) (by decide)
  refine ⟨by decide, by decide, hthm.1, ?_, hthm.2.2.2⟩
  have h2 := hthm.2.1
  rwa [show setDel ["u1", "u2"] "u1" = ["u2"] from by decide] at h2

/-- C8: `join_circle` from an authenticated connection first consults the
persisted membership; with no membership row the join is rejected with an
error response and the entire manager state (presence sets and the
connection's `circleId`) is unchanged; with a membership row the user is added
to the room's presence set with idempotent set semantics and `circleId` is set. -/
theorem join_circle_requires_membership
    (st : WSState) (s : Store) (c : ConnId) (uid : UserId) (cid : CircleId)
    (hu : (st.conns c).userId = some uid) :
    (getMembership s.memberships uid cid = none →
       handleJoinCircle st s c cid
         = (st, [Effect.sendTo c (Envelope.errorMsg "Not a member of this circle")]))
    ∧ (∀ m, getMembership s.memberships uid cid = some m →
       ((handleJoinCircle st s c cid).1.conns c).circleId = some cid
       ∧ nlookup (handleJoinCircle st s c cid).1.circleRooms cid
           = some (setAdd ((nlookup st.circleRooms cid).getD []) uid)
       ∧ (uid ∈ (nlookup st.circleRooms cid).getD [] →
            setAdd ((nlookup st.circleRooms cid).getD []) uid
              = (nlookup st.circleRooms cid).getD [])) := by
  constructor
  · intro hmem
    simp [handleJoinCircle, hu, hmem]
  · intro m hmem
    have hform : (handleJoinCircle st s c cid).1
        = { st with
              conns := fun x => if x = c then { st.conns c with circleId := some cid }
                                else st.conns x,
              circleRooms := nset st.circleRooms cid
                (setAdd ((nlookup st.circleRooms cid).getD []) uid) } := by
      simp [handleJoinCircle, hu, hmem, setConn]
    refine ⟨?_, ?_, ?_⟩
    · rw [hform]; simp
    · rw [hform]
      exact nlookup_nset_self _ _ _
    · intro hin
      simp [setAdd, hin]

/-- C8 witness: u1 joining circle 11 (no membership row) is rejected with no
state change; u1 re-joining circle 10 (membership exists, u1 already present)
leaves room 10's presence set unchanged. -/
theorem join_circle_requires_membership_witness :
    (sampleSt.conns 0).userId = some "u1"
    ∧ getMembership sampleStore.memberships "u1" 11 = none
    ∧ handleJoinCircle sampleSt sampleStore 0 11
        = (sampleSt, [Effect.sendTo 0 (Envelope.errorMsg "Not a member of this circle")])
    ∧ ((handleJoinCircle sampleSt sampleStore 0 10).1.conns 0).circleId = some 10
    ∧ nlookup (handleJoinCircle sampleSt sampleStore 0 10).1.circleRooms 10
        = some ["u1", "u2"] := by
  have hthm := join_circle_requires_membership sampleSt sampleStore 0 "u1" 11 (by decide)
  have hthm10 := join_circle_requires_membership sampleSt sampleStore 0 "u1" 10 (by decide)
  have hsucc := hthm10.2 ⟨10, "u1"⟩ (by decide)
  refine ⟨by decide, by decide, hthm.1 (by decide), hsucc.1, ?_⟩
  have h2 := hsucc.2.1
  rwa [show setAdd ((nlookup sampleSt.circleRooms 10).getD []) "u1" = ["u1", "u2"] from by
        decide] at h2

/-- C10: when a user present in room A successfully joins a different room B,
the connection's `circleId` becomes B but room A's presence set — and hence the
resolution of every broadcast to room A — is completely unchanged, so the user
keeps receiving room A's broadcasts. -/
theorem join_other_room_keeps_old_presence
    (st : WSState) (s : Store) (c : ConnId) (uid : UserId) (A B : CircleId)
    (roomA : List UserId) (m : MemberRec)
    (hu : (st.conns c).userId = some uid)
    (hA : nlookup st.circleRooms A = some roomA)
    (hin : uid ∈ roomA)
    (hAB : A ≠ B)
    (hm : getMembership s.memberships uid B = some m) :
    ((handleJoinCircle st s c B).1.conns c).circleId = some B
    ∧ nlookup (handleJoinCircle st s c B).1.circleRooms A = some roomA
    ∧ uid ∈ roomA
    ∧ (handleJoinCircle st s c B).1.clients = st.clients
    ∧ (∀ env ex, broadcastDeliveries (handleJoinCircle st s c B).1 A env ex
        = broadcastDeliveries st A env ex) := by
  have hform : (handleJoinCircle st s c B).1
      = { st with
            conns := fun x => if x = c then { st.conns c with circleId := some B }
                              else st.conns x,
            circleRooms := nset st.circleRooms B
              (setAdd ((nlookup st.circleRooms B).getD []) uid) } := by
    simp [handleJoinCircle, hu, hm, setConn]
  have hroomsA : nlookup (handleJoinCircle st s c B).1.circleRooms A = some roomA := by
    rw [hform]
    rw [show ({ st with
            conns := fun x => if x = c then { st.conns c with circleId := some B }
                              else st.conns x,
            circleRooms := nset st.circleRooms B
              (setAdd ((nlookup st.circleRooms B).getD []) uid) } : WSState).circleRooms
          = nset st.circleRooms B (setAdd ((nlookup st.circleRooms B).getD []) uid) from rfl,
        nlookup_nset_ne _ _ hAB, hA]
  have hopen : ∀ x, ((handleJoinCircle st s c B).1.conns x).isOpen = (st.conns x).isOpen := by
    intro x
    rw [hform]
    by_cases hx : x = c <;> simp [hx]
  have hcl : (handleJoinCircle st s c B).1.clients = st.clients := by
    rw [hform]
  refine ⟨by rw [hform]; simp, hroomsA, hin, hcl, ?_⟩
  intro env ex
  rw [show broadcastDeliveries (handleJoinCircle st s c B).1 A env ex
        = deliverAll (handleJoinCircle st s c B).1 roomA env ex from by
      simp [broadcastDeliveries, hroomsA],
      show broadcastDeliveries st A env ex = deliverAll st roomA env ex from by
      simp [broadcastDeliveries, hA]]
  exact deliverAll_congr hcl hopen roomA env ex

/-- C10 witness: u1 (present in room 10) joins room 20; `circleId` becomes 20,
room 10's presence set and its broadcast resolution are unchanged. -/
theorem join_other_room_keeps_old_presence_witness :
    getMembership sampleStoreB.memberships "u1" 20 = some ⟨20, "u1"⟩
    ∧ ((handleJoinCircle sampleSt sampleStoreB 0 20).1.conns 0).circleId = some 20
    ∧ nlookup (handleJoinCircle sampleSt sampleStoreB 0 20).1.circleRooms 10
        = some ["u1", "u2"]
    ∧ (∀ env ex, broadcastDeliveries (handleJoinCircle sampleSt sampleStoreB 0 20).1 10 env ex
        = broadcastDeliveries sampleSt 10 env ex) := by
  have hthm := join_other_room_keeps_old_presence sampleSt sampleStoreB 0 "u1" 10 20
    ["u1", "u2"] ⟨20, "u1"⟩ (by decide) (by decide) (by decide) (by decide) (by decide)
  exact ⟨by decide, hthm.1, hthm.2.1, hthm.2.2.2.2⟩

/-- C2 counterexample: a `typing(true)` envelope from u1 in room 10 produces,
as the handler's complete effect list, only the relayed typing broadcast — no
timer is scheduled for the (room, user) pair and no typing-stopped broadcast is
ever emitted by the server, contradicting the claimed server-side 3-second
auto-clear debounce. -/
theorem typing_schedules_no_timer_counterexample :
    (handleTyping sampleSt sampleStore 0 true).2.2
      = [Effect.broadcast 10 (Envelope.typing "u1" "Ada Lovelace" true) (some "u1")]
    ∧ hasTimerEffect (handleTyping sampleSt sampleStore 0 true).2.2 = false
    ∧ countTypingStopped (handleTyping sampleSt sampleStore 0 true).2.2 = 0 := by
  refine ⟨by decide, by decide, by decide⟩

/-- C2 amended: a `typing(true)` envelope from a connection in a room makes the
handler broadcast one typing-started envelope to the room excluding the sender
and nothing else — it schedules no auto-clear timer and emits no
typing-stopped broadcast (auto-clearing is left entirely to the receiving
clients). -/
theorem typing_broadcast_only_no_timer
    (st : WSState) (s : Store) (c : ConnId) (uid : UserId) (cid : CircleId)
    (hu : (st.conns c).userId = some uid)
    (hr : (st.conns c).circleId = some cid) :
    handleTyping st s c true
      = (st, s, [Effect.broadcast cid
          (Envelope.typing uid (displayName (getUser s.users uid)) true) (some uid)])
    ∧ hasTimerEffect (handleTyping st s c true).2.2 = false
    ∧ countTypingStopped (handleTyping st s c true).2.2 = 0 := by
  have hform : handleTyping st s c true
      = (st, s, [Effect.broadcast cid
          (Envelope.typing uid (displayName (getUser s.users uid)) true) (some uid)]) := by
    simp [handleTyping, hu, hr]
  rw [hform]
  exact ⟨rfl, rfl, rfl⟩

/-- C2 witness: the amended behaviour at the concrete sample state. -/
theorem typing_broadcast_only_no_timer_witness :
    (sampleSt.conns 1).userId = some "u2"
    ∧ (sampleSt.conns 1).circleId = some 10
    ∧ handleTyping sampleSt sampleStore 1 true
        = (sampleSt, sampleStore, [Effect.broadcast 10
            (Envelope.typing "u2" (displayName (getUser sampleStore.users "u2")) true)
            (some "u2")]) := by
  exact ⟨by decide, by decide,
    (typing_broadcast_only_no_timer sampleSt sampleStore 1 "u2" 10 (by decide) (by decide)).1⟩

/-- C3 counterexample: an unauthenticated connection sending `vote_item`
receives no response at all — the handler's effect list is empty, so no
AuthError/MembershipError envelope is produced, contradicting the claim that
every domain action yields an error response. -/
theorem vote_item_silent_drop_counterexample :
    handleVoteItem sampleStFresh sampleStore 0 5 1 = (sampleStFresh, sampleStore, [])
    ∧ (handleVoteItem sampleStFresh sampleStore 0 5 1).2.2 = [] := ⟨rfl, rfl⟩

/-- C3 amended: for a connection not in the IN_ROOM state, `send_message`
responds with a single error envelope to the sender, while `typing`,
`vote_item`, `add_cart_item` and `update_task` silently drop the envelope with
no response at all; in every case the manager state and the external store are
completely unchanged and no persistence call or broadcast is made. -/
theorem domain_actions_before_room_no_effects
    (st : WSState) (s : Store) (c : ConnId)
    (h : (st.conns c).userId = none ∨ (st.conns c).circleId = none) :
    (∀ content replyTo, handleSendMessage st s c content replyTo
       = (st, s, [Effect.sendTo c (Envelope.errorMsg "Not authenticated or not in a circle")]))
    ∧ (∀ b, handleTyping st s c b = (st, s, []))
    ∧ (∀ i v, handleVoteItem st s c i v = (st, s, []))
    ∧ (∀ name price q, handleAddCartItem st s c name price q = (st, s, []))
    ∧ (∀ t u, handleUpdateTask st s c t u = (st, s, [])) := by
  cases hu : (st.conns c).userId with
  | none =>
      exact ⟨fun content replyTo => by simp [handleSendMessage, hu],
        fun b => by simp [handleTyping, hu],
        fun i v => by simp [handleVoteItem, hu],
        fun name price q => by simp [handleAddCartItem, hu],
        fun t u => by simp [handleUpdateTask, hu]⟩
  | some uid =>
      cases hr : (st.conns c).circleId with
      | none =>
          exact ⟨fun content replyTo => by simp [handleSendMessage, hu, hr],
            fun b => by simp [handleTyping, hu, hr],
            fun i v => by simp [handleVoteItem, hu, hr],
            fun name price q => by simp [handleAddCartItem, hu, hr],
            fun t u => by simp [handleUpdateTask, hu, hr]⟩
      | some cid =>
          rcases h with h | h
          · exact absurd hu (h ▸ (by simp))
          · exact absurd hr (h ▸ (by simp))

/-- C3 witness: the amended behaviour on a fresh, unauthenticated connection. -/
theorem domain_actions_before_room_no_effects_witness :
    ((sampleStFresh.conns 0).userId = none ∨ (sampleStFresh.conns 0).circleId = none)
    ∧ handleSendMessage sampleStFresh sampleStore 0 "hi" none
        = (sampleStFresh, sampleStore,
           [Effect.sendTo 0 (Envelope.errorMsg "Not authenticated or not in a circle")])
    ∧ handleTyping sampleStFresh sampleStore 0 true = (sampleStFresh, sampleStore, [])
    ∧ handleAddCartItem sampleStFresh sampleStore 0 "Milk" 250 (some 1)
        = (sampleStFresh, sampleStore, [])
    ∧ handleUpdateTask sampleStFresh sampleStore 0 7 { completed := some true }
        = (sampleStFresh, sampleStore, []) := by
  have hthm := domain_actions_before_room_no_effects sampleStFresh sampleStore 0
    (Or.inl (by decide))
  exact ⟨Or.inl (by decide), hthm.1 "hi" none, hthm.2.1 true,
    hthm.2.2.2.1 "Milk" 250 (some 1), hthm.2.2.2.2 7 { completed := some true }⟩

/-- C4 counterexample: `add_cart_item{name:"Milk", price:250, quantity:1}` from
u1 in room 10 broadcasts an `item_added` envelope whose `item.price` is 25000
(the handler stores `Math.round(price * 100)` cents), not 250, and the circle's
`spent` aggregate becomes 25000, not 0 + 250. -/
theorem add_cart_item_price_scale_counterexample :
    itemAddedItems (handleAddCartItem sampleSt sampleStore 0 "Milk" 250 (some 1)).2.2
      = [⟨1, 10, "Milk", 25000, 1, "u1", none⟩]
    ∧ (25000 : Int) ≠ 250
    ∧ getCircle ((handleAddCartItem sampleSt sampleStore 0 "Milk" 250 (some 1)).2.1).circles 10
        = some ⟨10, 25000⟩
    ∧ (25000 : Int) ≠ 0 + 250 := by
  refine ⟨?_, by decide, ?_, by decide⟩
  · simp only [handleAddCartItem, jsRound_cents]
    decide
  · simp only [handleAddCartItem, jsRound_cents]
    decide

/-- C4 amended: `add_cart_item{name:"Milk", price:250, quantity:1}` from a room
member produces exactly one `item_added` broadcast whose `item.price` equals
25000 = round(price × 100) cents, exactly one cart-history row with action
"added" and item_name "Milk", and increases the circle's `spent` aggregate by
exactly 25000 (= round(price × 100) × quantity). -/
theorem add_cart_item_adds_cents
    (st : WSState) (s : Store) (c : ConnId) (uid : UserId) (cid : CircleId)
    (circ : CircleRec)
    (hu : (st.conns c).userId = some uid)
    (hr : (st.conns c).circleId = some cid)
    (hc : getCircle s.circles cid = some circ) :
    itemAddedItems (handleAddCartItem st s c "Milk" 250 (some 1)).2.2
      = [⟨s.nextCartItemId, cid, "Milk", 25000, 1, uid, none⟩]
    ∧ historyRows (handleAddCartItem st s c "Milk" 250 (some 1)).2.2
      = [⟨cid, uid, "added", "Milk", 25000, 1⟩]
    ∧ Effect.dbUpdateCircle cid (circ.spent + 25000)
        ∈ (handleAddCartItem st s c "Milk" 250 (some 1)).2.2
    ∧ getCircle ((handleAddCartItem st s c "Milk" 250 (some 1)).2.1).circles cid
      = some { circ with spent := circ.spent + 25000 } := by
  have heffs : (handleAddCartItem st s c "Milk" 250 (some 1)).2.2
      = Effect.dbCreateCartItem ⟨s.nextCartItemId, cid, "Milk", 25000, 1, uid, none⟩
          :: Effect.dbCreateCartHistory ⟨cid, uid, "added", "Milk", 25000, 1⟩
          :: [Effect.dbUpdateCircle cid (circ.spent + 25000)]
          ++ Effect.broadcast cid
               (Envelope.itemAdded ⟨s.nextCartItemId, cid, "Milk", 25000, 1, uid, none⟩) none
             :: ((othersOf uid (getCircleMembers s.memberships cid)).map
                  (fun m => Effect.dbCreateNotification (cartNotifFor s uid cid "Milk" m))).map
                  id := by
    simp [handleAddCartItem, hu, hr, jsRound_cents, jsQty, hc, cartNotifFor]
  have hcircles : (handleAddCartItem st s c "Milk" 250 (some 1)).2.1.circles
      = updateCircleSpent s.circles cid (circ.spent + 25000) := by
    simp [handleAddCartItem, hu, hr, jsRound_cents, jsQty, hc]
  refine ⟨?_, ?_, ?_, ?_⟩
  · rw [heffs]
    simp only [itemAddedItems, itemAddedItems_append, List.map_id]
    rw [itemAddedItems_map_notifs (cartNotifFor s uid cid "Milk")]
  · rw [heffs]
    simp only [historyRows, historyRows_append, List.map_id]
    rw [historyRows_map_notifs (cartNotifFor s uid cid "Milk")]
  · rw [heffs]
    simp
  · rw [hcircles]
    exact getCircle_updateCircleSpent _ hc

/-- C4 witness: the amended scenario on the sample state (circle 10 starts with
`spent = 0` and ends with `spent = 25000`). -/
theorem add_cart_item_adds_cents_witness :
    getCircle sampleStore.circles 10 = some ⟨10, 0⟩
    ∧ itemAddedItems (handleAddCartItem sampleSt sampleStore 1 "Milk" 250 (some 1)).2.2
        = [⟨1, 10, "Milk", 25000, 1, "u2", none⟩]
    ∧ historyRows (handleAddCartItem sampleSt sampleStore 1 "Milk" 250 (some 1)).2.2
        = [⟨10, "u2", "added", "Milk", 25000, 1⟩]
    ∧ getCircle ((handleAddCartItem sampleSt sampleStore 1 "Milk" 250 (some 1)).2.1).circles 10
        = some ⟨10, 25000⟩ := by
  have hthm := add_cart_item_adds_cents sampleSt sampleStore 1 "u2" 10 ⟨10, 0⟩
    (by decide) (by decide) (by decide)
  exact ⟨by decide, hthm.1, hthm.2.1, hthm.2.2.2⟩

/-- C7: `send_message` from a connection in a room first persists the message,
then broadcasts `new_message` to the room, and only then writes the
notification rows — one per persisted member row whose user differs from the
sender, and none for the sender — with the broadcast strictly preceding every
notification write in the effect order. -/
theorem send_message_persist_broadcast_notify_order
    (st : WSState) (s : Store) (c : ConnId) (uid : UserId) (cid : CircleId)
    (content : String) (replyTo : Option Nat)
    (hu : (st.conns c).userId = some uid)
    (hr : (st.conns c).circleId = some cid) :
    (handleSendMessage st s c content replyTo).2.2
      = Effect.dbCreateMessage ⟨s.nextMessageId, cid, uid, content, jsOrNull replyTo⟩
        :: Effect.broadcast cid
             (Envelope.newMessage ⟨s.nextMessageId, cid, uid, content, jsOrNull replyTo⟩) none
        :: (othersOf uid (getCircleMembers s.memberships cid)).map
             (fun m => Effect.dbCreateNotification (msgNotifFor s uid cid m))
    ∧ countNotifFor (handleSendMessage st s c content replyTo).2.2 uid = 0
    ∧ (∀ u', u' ≠ uid →
        countNotifFor (handleSendMessage st s c content replyTo).2.2 u'
          = countMemberIds (getCircleMembers s.memberships cid) u') := by
  have heffs : (handleSendMessage st s c content replyTo).2.2
      = Effect.dbCreateMessage ⟨s.nextMessageId, cid, uid, content, jsOrNull replyTo⟩
        :: Effect.broadcast cid
             (Envelope.newMessage ⟨s.nextMessageId, cid, uid, content, jsOrNull replyTo⟩) none
        :: (othersOf uid (getCircleMembers s.memberships cid)).map
             (fun m => Effect.dbCreateNotification (msgNotifFor s uid cid m)) := by
    simp [handleSendMessage, hu, hr, msgNotifFor]
  have hf : ∀ m, (msgNotifFor s uid cid m).user_id = m.user_id := fun m => rfl
  refine ⟨heffs, ?_, ?_⟩
  · rw [heffs]
    simp only [countNotifFor, countNotifFor_map (msgNotifFor s uid cid) hf]
    exact countMemberIds_othersOf_self uid _
  · intro u' hne
    rw [heffs]
    simp only [countNotifFor, countNotifFor_map (msgNotifFor s uid cid) hf]
    exact countMemberIds_othersOf_ne uid _ hne

/-- C7 witness: u1 sends "hi" in room 10 — the trace is persist, broadcast,
then exactly one notification for u2 and none for u1. -/
theorem send_message_persist_broadcast_notify_order_witness :
    (handleSendMessage sampleSt sampleStore 0 "hi" none).2.2
      = [Effect.dbCreateMessage ⟨1, 10, "u1", "hi", none⟩,
         Effect.broadcast 10 (Envelope.newMessage ⟨1, 10, "u1", "hi", none⟩) none,
         Effect.dbCreateNotification
           ⟨"u2", 10, "new_message", "New message", "Ada Lovelace sent a message", false⟩]
    ∧ countNotifFor (handleSendMessage sampleSt sampleStore 0 "hi" none).2.2 "u1" = 0
    ∧ countNotifFor (handleSendMessage sampleSt sampleStore 0 "hi" none).2.2 "u2" = 1 := by
  have hthm := send_message_persist_broadcast_notify_order sampleSt sampleStore 0 "u1" 10
    "hi" none (by decide) (by decide)
  refine ⟨by decide, hthm.2.1, ?_⟩
  have h2 := hthm.2.2 "u2" (by decide)
  rwa [show countMemberIds (getCircleMembers sampleStore.memberships 10) "u2" = 1 from by
        decide] at h2
